import Mathlib

/-!
Verification development for the Clinical-Pathways-Extraction-Pipeline.

The four stages of the pipeline are embedded shallowly:

* `convert_pdfs.py`   - PDF rasterizer (geometry only; rendering is abstracted).
* `extract_pathway.py` - Page Analyzer: per-page LLM analysis plus a summary
  request, collected into an Extraction Artifact.
* `complete_summary.py` - Complete-Summary Synthesizer with token-limit logging.
* `matching_summaries.py` - Matching-Summary Condenser and corpus consolidation.

Strings are modelled as `List Char` (ASCII inputs).  LLM calls are abstracted
as outcome parameters (success with response/thinking text, or an error), since
their results are external input to the program logic.  JSON records built by
the code are modelled as ordered key-value lists so that the exact set of keys
written by the code is visible.
-/

/-- Python strings are modelled as lists of characters. -/
abbrev PyStr := List Char

/-! ### matching_summaries.py : clean_pathway_name (lines 26-34)

`clean_pathway_name` first removes every occurrence of the substring
`_complete_summary.json` (Python `str.replace` with empty replacement), then
applies `re.sub` with the pattern `-v\d+(\.\d+)?(-\d+)?(-508h)?` and empty
replacement.  The regex engine scans left to right; each quantified or optional
group is greedy, and for this pattern no backtracking can change a successful
match, so the match at a position is computed by taking each piece greedily in
order. -/

/-- The literal suffix removed by `str.replace` in `clean_pathway_name`. -/
def csjPat : PyStr := "_complete_summary.json".toList

/-- Fuel-indexed removal of all occurrences of `csjPat`, mirroring Python
`str.replace(pat, "")`: scan left to right, delete each non-overlapping
occurrence and continue after it. -/
def removeCSJFuel : Nat → PyStr → PyStr
  | _, [] => []
  | 0, l => l
  | f + 1, c :: cs =>
    if csjPat.isPrefixOf (c :: cs) then removeCSJFuel f ((c :: cs).drop csjPat.length)
    else c :: removeCSJFuel f cs

/-- Removal of all occurrences of `_complete_summary.json`, the first step of
`clean_pathway_name`.  The length of the input is always enough fuel. -/
def removeCSJ (l : PyStr) : PyStr := removeCSJFuel l.length l

/-- Decides whether some occurrence of `csjPat` starts anywhere in `l`. -/
def hasCSJ : PyStr → Bool
  | [] => false
  | c :: cs => csjPat.isPrefixOf (c :: cs) || hasCSJ cs

/-- Greedy match of the optional regex group `(\.\d+)?` at the head of the
input; returns the remainder (the group is skipped when it cannot match). -/
def matchOptDot : PyStr → PyStr
  | c :: d :: rest =>
      if c = '.' && d.isDigit then (d :: rest).dropWhile Char.isDigit else c :: d :: rest
  | l => l

/-- Greedy match of the optional regex group `(-\d+)?` at the head of the
input; returns the remainder. -/
def matchOptDash : PyStr → PyStr
  | c :: d :: rest =>
      if c = '-' && d.isDigit then (d :: rest).dropWhile Char.isDigit else c :: d :: rest
  | l => l

/-- Match of the optional literal regex group `(-508h)?` at the head of the
input; returns the remainder. -/
def matchOpt508h (l : PyStr) : PyStr :=
  if ("-508h".toList).isPrefixOf l then l.drop 5 else l

/-- Attempts to match the version pattern `-v\d+(\.\d+)?(-\d+)?(-508h)?` at the
head of the input, returning the remainder after the match on success.  The
mandatory part needs a leading `-v` followed by at least one digit; the three
optional groups are then taken greedily in order, matching the Python regex
engine on this backtracking-free pattern. -/
def matchVer : PyStr → Option PyStr
  | c :: d :: rest =>
      if c = '-' && d = 'v' && !(rest.takeWhile Char.isDigit).isEmpty then
        some (matchOpt508h (matchOptDash (matchOptDot (rest.dropWhile Char.isDigit))))
      else none
  | _ => none

/-- Fuel-indexed `re.sub` of the version pattern with empty replacement:
leftmost non-overlapping matches are deleted, scanning resumes after each
deleted match. -/
def subVerFuel : Nat → PyStr → PyStr
  | _, [] => []
  | 0, l => l
  | f + 1, c :: cs =>
    match matchVer (c :: cs) with
    | some rest => subVerFuel f rest
    | none => c :: subVerFuel f cs

/-- `re.sub` of the version pattern with empty replacement.  The length of the
input is always enough fuel. -/
def subVer (l : PyStr) : PyStr := subVerFuel l.length l

/-- Decides whether the version pattern matches at some position of `l`. -/
def hasVer : PyStr → Bool
  | [] => false
  | c :: cs => (matchVer (c :: cs)).isSome || hasVer cs

/-- Embeds `clean_pathway_name` (matching_summaries.py lines 26-34):
remove all `_complete_summary.json` occurrences, then strip the version
pattern. -/
def clean_pathway_name (filename : PyStr) : PyStr := subVer (removeCSJ filename)

/-! ### matching_summaries.py : generate_condensed_summary (lines 90-115) -/

/-- ASCII whitespace recognised by Python `str.split()` with no argument. -/
def isPySpace (c : Char) : Bool :=
  c = ' ' || c = '\t' || c = '\n' || c = '\r' || c = '\x0b' || c = '\x0c'

/-- Fuel-indexed Python `str.split()`: split on runs of whitespace, dropping
leading, trailing and repeated separators, so only nonempty tokens remain. -/
def pySplitFuel : Nat → PyStr → List PyStr
  | _, [] => []
  | 0, l => [l]
  | f + 1, c :: cs =>
    if isPySpace c then pySplitFuel f cs
    else (c :: cs.takeWhile (fun x => !isPySpace x)) :: pySplitFuel f (cs.dropWhile (fun x => !isPySpace x))

/-- Python `str.split()` on whitespace.  The length of the input is always
enough fuel. -/
def pySplit (l : PyStr) : List PyStr := pySplitFuel l.length l

/-- The Matching-Summary Artifact written by `generate_condensed_summary`
(matching_summaries.py lines 94-101). -/
structure MatchingArtifact where
  pathway_name : PyStr
  original_file : PyStr
  processed_at : PyStr
  matching_summary : PyStr
  word_count : Nat
deriving DecidableEq

/-- Embeds the artifact construction of `generate_condensed_summary`
(matching_summaries.py lines 94-101): the condensed summary returned by the
model is stored as `matching_summary` and `word_count` is
`len(condensed_summary.split())`. -/
def generate_condensed_summary (jsonBase now condensed : PyStr) : MatchingArtifact :=
  { pathway_name := clean_pathway_name jsonBase
    original_file := jsonBase
    processed_at := now
    matching_summary := condensed
    word_count := (pySplit condensed).length }

/-- Content of the plain-text `_matching.txt` file written by
`generate_condensed_summary` (matching_summaries.py lines 109-112). -/
def matching_txt_content (cleanName condensed : PyStr) : PyStr :=
  ("PATHWAY: ".toList) ++ cleanName ++ ('\n' :: '\n' :: []) ++ condensed

/-! ### matching_summaries.py : consolidated corpus (lines 169-179) -/

/-- Embeds the content written to `all_pathway_summaries.txt`
(matching_summaries.py line 177).  By Python operator precedence the written
string is `"\n\n" + ("=" * 50) + ("\n\n".join(all_summaries))`: the equals
line appears once at the start, and the summaries are joined by two newlines
only. -/
def all_pathway_summaries (all_summaries : List PyStr) : PyStr :=
  ("\n\n".toList) ++ List.replicate 50 '=' ++ List.intercalate ("\n\n".toList) all_summaries

/-- Follows the spec wording for the consolidated corpus: the summaries joined
pairwise by the fixed delimiter line (two newlines, fifty equals characters,
two newlines), with no extra leading or trailing text. -/
def all_pathway_summaries_spec (all_summaries : List PyStr) : PyStr :=
  List.intercalate (("\n\n".toList) ++ List.replicate 50 '=' ++ ("\n\n".toList)) all_summaries

/-! ### extract_pathway.py : records and process_pathway_folder

The dictionaries appended to `all_responses` are modelled as ordered key-value
lists so that the exact key set written by the code is visible.  Each LLM call
is abstracted as a `PageOutcome`: either a success carrying the accumulated
response and thinking text, or an error (the code catches any exception, logs
it and omits the record). -/

/-- A JSON scalar stored in a response record. -/
inductive JVal where
  | jstr (s : PyStr)
  | jnum (n : Nat)
deriving DecidableEq

/-- A JSON object modelled as an ordered key-value list. -/
abbrev JRecord := List (PyStr × JVal)

/-- Key strings of the response records. -/
def pageKey : PyStr := "page".toList

/-- Key of the image file name field of a Page Record. -/
def imageFileKey : PyStr := "image_file".toList

/-- Key of the final answer text field. -/
def responseKey : PyStr := "response".toList

/-- Key of the intermediate reasoning text field. -/
def thinkingKey : PyStr := "thinking".toList

/-- The keys present in a record, in order. -/
def recordKeys (r : JRecord) : List PyStr := r.map Prod.fst

/-- The Page Record appended for a successfully analyzed page
(extract_pathway.py lines 205-210). -/
def mkPageRecord (pageNo : Nat) (imageFile resp think : PyStr) : JRecord :=
  [(pageKey, JVal.jnum pageNo), (imageFileKey, JVal.jstr imageFile),
   (responseKey, JVal.jstr resp), (thinkingKey, JVal.jstr think)]

/-- The Pathway Summary Record appended after the summary request
(extract_pathway.py lines 289-293).  The code writes only the keys `page`,
`response` and `thinking` here. -/
def mkSummaryRecord (resp think : PyStr) : JRecord :=
  [(pageKey, JVal.jstr ("summary".toList)),
   (responseKey, JVal.jstr resp), (thinkingKey, JVal.jstr think)]

/-- Outcome of one streamed LLM request: the accumulated response and thinking
text on success, or an error (any raised exception). -/
inductive PageOutcome where
  | ok (resp think : PyStr)
  | err
deriving DecidableEq

/-- The page loop of `process_pathway_folder` (extract_pathway.py lines
121-213): the i-th processed image (0-based, after the first page was dropped)
yields a record with page number `i + 2` on success and nothing on error. -/
def pageRecords : Nat → List (PyStr × PageOutcome) → List JRecord
  | _, [] => []
  | i, (img, PageOutcome.ok r t) :: rest => mkPageRecord (i + 2) img r t :: pageRecords (i + 1) rest
  | i, (_, PageOutcome.err) :: rest => pageRecords (i + 1) rest

/-- The full `responses` list written to the Extraction Artifact: the page
records followed by the summary record when the summary request succeeded
(extract_pathway.py lines 288-293; an error in the summary request is caught
at line 295 and the summary record is omitted). -/
def extraction_responses (image_files : List PyStr) (outs : List PageOutcome)
    (summaryOut : PageOutcome) : List JRecord :=
  match summaryOut with
  | PageOutcome.ok r t => pageRecords 0 ((image_files.drop 1).zip outs) ++ [mkSummaryRecord r t]
  | PageOutcome.err => pageRecords 0 ((image_files.drop 1).zip outs)

/-- Result of one run of `process_pathway_folder` on a document folder:
the Extraction Artifact's `responses` when one is written, and the number of
LLM requests issued. -/
structure ExtractionRun where
  artifact : Option (List JRecord)
  llmRequests : Nat
deriving DecidableEq

/-- Embeds `process_pathway_folder` (extract_pathway.py lines 62-307): with
fewer than 2 page images the function returns before issuing any request or
writing any file (lines 71-73); otherwise the first image is dropped (line 76),
one request is issued per remaining page plus one summary request, and the
artifact is always written (lines 298-305). -/
def process_pathway_folder (image_files : List PyStr) (outs : List PageOutcome)
    (summaryOut : PageOutcome) : ExtractionRun :=
  if image_files.length < 2 then { artifact := none, llmRequests := 0 }
  else
    { artifact := some (extraction_responses image_files outs summaryOut)
      llmRequests := (image_files.drop 1).length + 1 }

/-- Number of records in a `responses` list whose `page` field is the string
sentinel `summary`. -/
def countSummaryRecords (recs : List JRecord) : Nat :=
  (recs.filter (fun r => List.lookup pageKey r == some (JVal.jstr ("summary".toList)))).length

/-! ### The streaming response accumulator

The same inline loop appears in extract_pathway.py (lines 155-202 and 230-286)
and complete_summary.py (lines 69-116).  Per request the code initializes two
empty text accumulators and two false flags, then folds the stream events. -/

/-- State of the streaming accumulator: the two text accumulators and the two
block flags `in_thinking_block` and `in_text_block`. -/
structure StreamState where
  thinkingAcc : PyStr
  responseAcc : PyStr
  inThinkingBlock : Bool
  inTextBlock : Bool
deriving DecidableEq

/-- The stream events the loop inspects. -/
inductive StreamEvent where
  | startThinkingBlock
  | startTextBlock
  | thinkingDelta (s : PyStr)
  | textDelta (s : PyStr)
  | contentBlockStop
  | messageStop
deriving DecidableEq

/-- The state installed at the start of every request (empty accumulators,
both flags false). -/
def initStreamState : StreamState :=
  { thinkingAcc := [], responseAcc := [], inThinkingBlock := false, inTextBlock := false }

/-- One step of the streaming loop: a thinking block start raises the thinking
flag (leaving the text flag untouched); a text block start raises the text flag
and clears the thinking flag; a delta appends to its accumulator only when the
matching flag is set; a block stop clears the thinking flag if set, else the
text flag if set. -/
def streamStep (st : StreamState) (e : StreamEvent) : StreamState :=
  match e with
  | StreamEvent.startThinkingBlock => { st with inThinkingBlock := true }
  | StreamEvent.startTextBlock => { st with inTextBlock := true, inThinkingBlock := false }
  | StreamEvent.thinkingDelta s =>
      if st.inThinkingBlock then { st with thinkingAcc := st.thinkingAcc ++ s } else st
  | StreamEvent.textDelta s =>
      if st.inTextBlock then { st with responseAcc := st.responseAcc ++ s } else st
  | StreamEvent.contentBlockStop =>
      if st.inThinkingBlock then { st with inThinkingBlock := false }
      else if st.inTextBlock then { st with inTextBlock := false }
      else st
  | StreamEvent.messageStop => st

/-- Processing of one streamed request: fold the events from the freshly reset
state. -/
def runStreamRequest (events : List StreamEvent) : StreamState :=
  List.foldl streamStep initStreamState events

/-- The pair of block flags of a state. -/
def blockFlags (st : StreamState) : Bool × Bool := (st.inThinkingBlock, st.inTextBlock)

/-! ### complete_summary.py : generate_complete_summary (lines 25-148) -/

/-- Lowercasing as in Python `str.lower()` on ASCII text. -/
def pyLower (l : PyStr) : PyStr := l.map Char.toLower

/-- Python substring containment, `pat in l`. -/
def containsSub (pat : PyStr) : PyStr → Bool
  | [] => pat.isEmpty
  | c :: cs => pat.isPrefixOf (c :: cs) || containsSub pat cs

/-- The token-limit marker searched for in the error message
(complete_summary.py line 138). -/
def tooManyTokensMsg : PyStr := "too many tokens".toList

/-- The Complete-Summary Artifact written on success
(complete_summary.py lines 119-132). -/
structure CompleteSummaryArtifact where
  pathway_name : PyStr
  original_file : PyStr
  processed_at : PyStr
  summary_response : PyStr
  summary_thinking : PyStr
deriving DecidableEq

/-- Outcome of the complete-summary request: success, a BadRequestError
carrying its message, or any other exception. -/
inductive ReqResult where
  | ok (resp think : PyStr)
  | badRequest (msg : PyStr)
  | otherError
deriving DecidableEq

/-- Observable result of `generate_complete_summary` for one document: the
artifact written (if any), the number of lines appended to
`needs_truncation.log`, and the returned success flag. -/
structure CompleteRunResult where
  artifact : Option CompleteSummaryArtifact
  truncationLogLines : Nat
  success : Bool
deriving DecidableEq

/-- Embeds the error handling of `generate_complete_summary`
(complete_summary.py lines 118-148): on success the artifact is written and
True returned; a BadRequestError whose lowercased message contains
`too many tokens` appends exactly one line to `needs_truncation.log` and
returns False without writing an artifact; any other BadRequestError and any
other exception return False with no log line and no artifact. -/
def generate_complete_summary (pathwayName baseName now : PyStr) (req : ReqResult) :
    CompleteRunResult :=
  match req with
  | ReqResult.ok r t =>
      { artifact := some { pathway_name := pathwayName, original_file := baseName,
                           processed_at := now, summary_response := r, summary_thinking := t }
        truncationLogLines := 0
        success := true }
  | ReqResult.badRequest msg =>
      if containsSub tooManyTokensMsg (pyLower msg) then
        { artifact := none, truncationLogLines := 1, success := false }
      else
        { artifact := none, truncationLogLines := 0, success := false }
  | ReqResult.otherError =>
      { artifact := none, truncationLogLines := 0, success := false }

/-! ## Helper lemmas -/

/-- Dropping a predicate-satisfying run never makes a list longer. -/
theorem length_dropWhile_le (p : Char → Bool) (l : PyStr) :
    (l.dropWhile p).length ≤ l.length := by
  induction l with
  | nil => exact Nat.le_refl _
  | cons a l ih =>
    rw [List.dropWhile_cons]
    split
    · exact Nat.le_succ_of_le ih
    · exact Nat.le_refl _

/-- When the head of the list satisfies the predicate, dropping strictly
shortens the list. -/
theorem length_dropWhile_lt (p : Char → Bool) (l : PyStr)
    (h : l.takeWhile p ≠ []) : (l.dropWhile p).length < l.length := by
  cases l with
  | nil => simp at h
  | cons a l =>
    by_cases hp : p a
    · rw [List.dropWhile_cons_of_pos hp]
      exact Nat.lt_succ_of_le (length_dropWhile_le p l)
    · rw [List.takeWhile_cons_of_neg hp] at h
      exact absurd rfl h

/-- The optional dot group never makes the remainder longer. -/
theorem matchOptDot_length (l : PyStr) : (matchOptDot l).length ≤ l.length := by
  cases l with
  | nil => exact Nat.le_refl _
  | cons c t =>
    cases t with
    | nil => exact Nat.le_refl _
    | cons d rest =>
      simp only [matchOptDot]
      split
      · exact Nat.le_trans (length_dropWhile_le _ _) (by simp)
      · exact Nat.le_refl _

/-- The optional dash group never makes the remainder longer. -/
theorem matchOptDash_length (l : PyStr) : (matchOptDash l).length ≤ l.length := by
  cases l with
  | nil => exact Nat.le_refl _
  | cons c t =>
    cases t with
    | nil => exact Nat.le_refl _
    | cons d rest =>
      simp only [matchOptDash]
      split
      · exact Nat.le_trans (length_dropWhile_le _ _) (by simp)
      · exact Nat.le_refl _

/-- The optional literal group never makes the remainder longer. -/
theorem matchOpt508h_length (l : PyStr) : (matchOpt508h l).length ≤ l.length := by
  unfold matchOpt508h
  split
  · simp
  · exact Nat.le_refl _

/-- A successful match of the version pattern consumes at least one character
(in fact at least three), so the remainder is strictly shorter. -/
theorem matchVer_length {l r : PyStr} (h : matchVer l = some r) : r.length < l.length := by
  cases l with
  | nil => simp [matchVer] at h
  | cons c t =>
    cases t with
    | nil => simp [matchVer] at h
    | cons d rest =>
      simp only [matchVer] at h
      split at h
      · next hcond =>
        have hne : rest.takeWhile Char.isDigit ≠ [] := by
          rcases Bool.and_eq_true_iff.mp hcond with ⟨-, hr⟩
          simpa using hr
        have h1 : (rest.dropWhile Char.isDigit).length < rest.length :=
          length_dropWhile_lt _ _ hne
        have h2 := matchOptDot_length (rest.dropWhile Char.isDigit)
        have h3 := matchOptDash_length (matchOptDot (rest.dropWhile Char.isDigit))
        have h4 := matchOpt508h_length (matchOptDash (matchOptDot (rest.dropWhile Char.isDigit)))
        have hr : r = matchOpt508h (matchOptDash (matchOptDot (rest.dropWhile Char.isDigit))) :=
          (Option.some_inj.mp h).symm
        subst hr
        simp only [List.length_cons]
        omega
      · exact absurd h (by simp)

/-- The fuel-indexed substitution on the empty list. -/
theorem subVerFuel_nil (f : Nat) : subVerFuel f [] = [] := by cases f <;> rfl

/-- Any fuel at least the length of the input gives the same result. -/
theorem subVerFuel_congr : ∀ f g (l : PyStr), l.length ≤ f → l.length ≤ g →
    subVerFuel f l = subVerFuel g l := by
  intro f
  induction f with
  | zero =>
    intro g l hf _
    have : l = [] := List.eq_nil_of_length_eq_zero (Nat.le_zero.mp hf)
    subst this
    rw [subVerFuel_nil, subVerFuel_nil]
  | succ f ih =>
    intro g l hf hg
    cases l with
    | nil => rw [subVerFuel_nil, subVerFuel_nil]
    | cons c cs =>
      cases g with
      | zero => simp at hg
      | succ g =>
        cases hm : matchVer (c :: cs) with
        | some rest =>
          have hlt : rest.length < cs.length + 1 := by simpa using matchVer_length hm
          simp only [subVerFuel, hm]
          exact ih g rest (by simp at hf; omega) (by simp at hg; omega)
        | none =>
          simp only [subVerFuel, hm]
          exact congrArg (List.cons c) (ih g cs (by simp at hf; omega) (by simp at hg; omega))

/-- Unfolding equation of `subVer` when no match starts at the head. -/
theorem subVer_cons_none {c : Char} {cs : PyStr} (h : matchVer (c :: cs) = none) :
    subVer (c :: cs) = c :: subVer cs := by
  show subVerFuel (cs.length + 1) (c :: cs) = _
  simp only [subVerFuel, h]
  rfl

/-- Unfolding equation of `subVer` when a match starts at the head: the match
is deleted and scanning resumes on the remainder. -/
theorem subVer_cons_some {c : Char} {cs rest : PyStr} (h : matchVer (c :: cs) = some rest) :
    subVer (c :: cs) = subVer rest := by
  have hlt : rest.length < cs.length + 1 := by simpa using matchVer_length h
  show subVerFuel (cs.length + 1) (c :: cs) = _
  simp only [subVerFuel, h]
  exact subVerFuel_congr cs.length rest.length rest (by omega) (Nat.le_refl _)

/-- When the version pattern matches nowhere, `re.sub` returns the input
unchanged. -/
theorem subVer_id_of_not_hasVer : ∀ l : PyStr, hasVer l = false → subVer l = l := by
  intro l
  induction l with
  | nil => intro _; rfl
  | cons c cs ih =>
    intro h
    cases hm : matchVer (c :: cs) with
    | some rest => simp [hasVer, hm] at h
    | none =>
      have hcs : hasVer cs = false := by simpa [hasVer, hm] using h
      rw [subVer_cons_none hm, ih hcs]

/-- The fuel-indexed replacement on the empty list. -/
theorem removeCSJFuel_nil (f : Nat) : removeCSJFuel f [] = [] := by cases f <;> rfl

/-- Any fuel at least the length of the input gives the same result. -/
theorem removeCSJFuel_congr : ∀ f g (l : PyStr), l.length ≤ f → l.length ≤ g →
    removeCSJFuel f l = removeCSJFuel g l := by
  intro f
  induction f with
  | zero =>
    intro g l hf _
    have : l = [] := List.eq_nil_of_length_eq_zero (Nat.le_zero.mp hf)
    subst this
    rw [removeCSJFuel_nil, removeCSJFuel_nil]
  | succ f ih =>
    intro g l hf hg
    cases l with
    | nil => rw [removeCSJFuel_nil, removeCSJFuel_nil]
    | cons c cs =>
      cases g with
      | zero => simp at hg
      | succ g =>
        have h22 : csjPat.length = 22 := rfl
        by_cases hp : csjPat.isPrefixOf (c :: cs)
        · simp only [removeCSJFuel, if_pos hp]
          exact ih g ((c :: cs).drop csjPat.length)
            (by simp only [List.length_drop, List.length_cons] at *; omega)
            (by simp only [List.length_drop, List.length_cons] at *; omega)
        · simp only [removeCSJFuel, if_neg hp]
          exact congrArg (List.cons c) (ih g cs (by simp at hf; omega) (by simp at hg; omega))

/-- Unfolding equation of `removeCSJ` when the pattern occurs at the head. -/
theorem removeCSJ_pos {l : PyStr} (h : csjPat.isPrefixOf l = true) :
    removeCSJ l = removeCSJ (l.drop csjPat.length) := by
  cases l with
  | nil => exact absurd h (by decide)
  | cons c cs =>
    have h22 : csjPat.length = 22 := rfl
    show removeCSJFuel (cs.length + 1) (c :: cs) = _
    simp only [removeCSJFuel, if_pos h]
    exact removeCSJFuel_congr cs.length ((c :: cs).drop csjPat.length).length _
      (by simp only [List.length_drop, List.length_cons]; omega) (Nat.le_refl _)

/-- Unfolding equation of `removeCSJ` when the pattern does not occur at the
head. -/
theorem removeCSJ_cons_neg {c : Char} {cs : PyStr} (h : ¬ csjPat.isPrefixOf (c :: cs) = true) :
    removeCSJ (c :: cs) = c :: removeCSJ cs := by
  show removeCSJFuel (cs.length + 1) (c :: cs) = _
  simp only [removeCSJFuel, if_neg h]
  rfl

/-- When the pattern occurs nowhere, `str.replace` returns the input
unchanged. -/
theorem removeCSJ_id_of_not_hasCSJ : ∀ l : PyStr, hasCSJ l = false → removeCSJ l = l := by
  intro l
  induction l with
  | nil => intro _; rfl
  | cons c cs ih =>
    intro h
    by_cases hp : csjPat.isPrefixOf (c :: cs)
    · simp [hasCSJ, hp] at h
    · have hcs : hasCSJ cs = false := by simpa [hasCSJ, hp] using h
      rw [removeCSJ_cons_neg hp, ih hcs]

/-! ## Claim C4 : idempotence of clean-name derivation -/

/-- Claim C4, counterexample: the version-suffix stripping is not idempotent.
On `a-v-v1-2-508h3` the regex deletes `-v1-2-508h`, splicing the surrounding
text into the fresh version suffix `-v3`, so a second application strips
further. -/
theorem c4_counterexample :
    clean_pathway_name ("a-v-v1-2-508h3".toList) = "a-v3".toList ∧
    clean_pathway_name (clean_pathway_name ("a-v-v1-2-508h3".toList)) = "a".toList ∧
    clean_pathway_name (clean_pathway_name ("a-v-v1-2-508h3".toList)) ≠
      clean_pathway_name ("a-v-v1-2-508h3".toList) := by decide

/-- Claim C4, amended: clean-name derivation is idempotent on every filename
whose cleaned form contains no occurrence of `_complete_summary.json` and no
match of the version-suffix pattern (deleting a match can splice surrounding
text into a fresh occurrence, so this holds only under these conditions and
not in general). -/
theorem c4_clean_idempotent_amended (x : PyStr)
    (h1 : hasCSJ (clean_pathway_name x) = false)
    (h2 : hasVer (clean_pathway_name x) = false) :
    clean_pathway_name (clean_pathway_name x) = clean_pathway_name x := by
  show subVer (removeCSJ (clean_pathway_name x)) = clean_pathway_name x
  rw [removeCSJ_id_of_not_hasCSJ _ h1, subVer_id_of_not_hasVer _ h2]

/-- Witness for the amended claim C4 at the concrete filename `Pathway-v2`. -/
theorem c4_witness :
    hasCSJ (clean_pathway_name ("Pathway-v2".toList)) = false ∧
    hasVer (clean_pathway_name ("Pathway-v2".toList)) = false ∧
    clean_pathway_name (clean_pathway_name ("Pathway-v2".toList)) =
      clean_pathway_name ("Pathway-v2".toList) :=
  ⟨by decide, by decide,
    c4_clean_idempotent_amended ("Pathway-v2".toList) (by decide) (by decide)⟩

/-! ## Claim C10 : interior occurrences of the suffix are removed too -/

/-- Claim C10: Python `str.replace` deletes every occurrence, not only a
trailing suffix.  For any prefix that cannot start an occurrence (no underscore
character) and any remainder, the interior occurrence of
`_complete_summary.json` is deleted before version stripping is applied. -/
theorem c10_interior_occurrence_removed (p s : PyStr) (h : ∀ c ∈ p, c ≠ '_') :
    removeCSJ (p ++ csjPat ++ s) = p ++ removeCSJ s ∧
    clean_pathway_name (p ++ csjPat ++ s) = subVer (p ++ removeCSJ s) := by
  have main : removeCSJ (p ++ csjPat ++ s) = p ++ removeCSJ s := by
    induction p with
    | nil =>
      show removeCSJ (csjPat ++ s) = removeCSJ s
      have hpre : csjPat.isPrefixOf (csjPat ++ s) = true :=
        List.isPrefixOf_iff_prefix.mpr (List.prefix_append csjPat s)
      rw [removeCSJ_pos hpre, List.drop_left]
    | cons a p ih =>
      have ha : a ≠ '_' := h a (List.mem_cons_self a p)
      have hp : ∀ c ∈ p, c ≠ '_' := fun c hc => h c (List.mem_cons_of_mem a hc)
      have hnp : ¬ csjPat.isPrefixOf (a :: (p ++ csjPat ++ s)) = true := by
        intro hcontra
        have : ('_' :: "complete_summary.json".toList).isPrefixOf
            (a :: (p ++ csjPat ++ s)) = true := hcontra
        simp only [List.isPrefixOf, Bool.and_eq_true, beq_iff_eq] at this
        exact ha this.1.symm
      show removeCSJ (a :: (p ++ csjPat ++ s)) = a :: (p ++ removeCSJ s)
      rw [removeCSJ_cons_neg hnp, ih hp]
  exact ⟨main, by show subVer (removeCSJ (p ++ csjPat ++ s)) = _; rw [main]⟩

/-- Witness for claim C10 at a concrete interior occurrence. -/
theorem c10_witness :
    removeCSJ (("abc".toList) ++ csjPat ++ ("def".toList)) =
      ("abc".toList) ++ removeCSJ ("def".toList) :=
  (c10_interior_occurrence_removed ("abc".toList) ("def".toList) (by decide)).1

/-! ## Claim C6 : word_count equals the whitespace token count -/

/-- Claim C6: in every Matching-Summary Artifact the `word_count` field equals
the number of whitespace-delimited tokens of the `matching_summary` string
stored in the same artifact. -/
theorem c6_word_count (jsonBase now condensed : PyStr) :
    (generate_condensed_summary jsonBase now condensed).word_count =
      (pySplit (generate_condensed_summary jsonBase now condensed).matching_summary).length := rfl

/-! ## Claim C1 : consolidated corpus content -/

/-- Claim C1 fails on the code: by Python operator precedence the delimiter
string is emitted once at the very start of the file, and the summaries are
joined by two newlines only; the spec-described delimiter-joined corpus
differs already for the two summaries `A` and `B`. -/
theorem c1_consolidation_bug :
    all_pathway_summaries [("A".toList), ("B".toList)] =
      ("\n\n".toList) ++ List.replicate 50 '=' ++ ("A\n\nB".toList) ∧
    all_pathway_summaries_spec [("A".toList), ("B".toList)] =
      ("A\n\n".toList) ++ List.replicate 50 '=' ++ ("\n\nB".toList) ∧
    all_pathway_summaries [("A".toList), ("B".toList)] ≠
      all_pathway_summaries_spec [("A".toList), ("B".toList)] := by decide

/-! ## Claim C8 : folders with fewer than 2 page images are skipped -/

/-- Claim C8: a document folder with fewer than 2 page images is skipped
entirely: no LLM request is issued and no Extraction Artifact is written. -/
theorem c8_skip_small_folder (image_files : List PyStr) (outs : List PageOutcome)
    (summaryOut : PageOutcome) (h : image_files.length < 2) :
    process_pathway_folder image_files outs summaryOut =
      { artifact := none, llmRequests := 0 } := by
  unfold process_pathway_folder
  rw [if_pos h]

/-- Witness for claim C8 on a folder with a single page image. -/
theorem c8_witness :
    process_pathway_folder [("pg1.png".toList)] [] PageOutcome.err =
      { artifact := none, llmRequests := 0 } :=
  c8_skip_small_folder [("pg1.png".toList)] [] PageOutcome.err (by decide)

/-! ## Claims C2 and C9 : shape of the responses sequence -/

/-- The image file field of a Page Record. -/
theorem lookup_image_mkPageRecord (n : Nat) (img r t : PyStr) :
    List.lookup imageFileKey (mkPageRecord n img r t) = some (JVal.jstr img) := rfl

/-- A Pathway Summary Record carries no image file field at all. -/
theorem lookup_image_mkSummaryRecord (r t : PyStr) :
    List.lookup imageFileKey (mkSummaryRecord r t) = none := rfl

/-- A Page Record is never counted as a summary record. -/
theorem countSummary_cons_page (n : Nat) (img r t : PyStr) (rest : List JRecord) :
    countSummaryRecords (mkPageRecord n img r t :: rest) = countSummaryRecords rest := rfl

/-- A Pathway Summary Record is always counted as a summary record. -/
theorem countSummary_cons_summary (r t : PyStr) (rest : List JRecord) :
    countSummaryRecords (mkSummaryRecord r t :: rest) = countSummaryRecords rest + 1 := rfl

/-- Appending the summary record raises the summary count by exactly one. -/
theorem countSummary_append_summary (recs : List JRecord) (r t : PyStr) :
    countSummaryRecords (recs ++ [mkSummaryRecord r t]) = countSummaryRecords recs + 1 := by
  simp only [countSummaryRecords, List.filter_append, List.length_append]
  rfl

/-- The page loop never produces a record counted as a summary record. -/
theorem countSummary_pageRecords : ∀ (ps : List (PyStr × PageOutcome)) (i : Nat),
    countSummaryRecords (pageRecords i ps) = 0 := by
  intro ps
  induction ps with
  | nil => intro i; rfl
  | cons q rest ih =>
    intro i
    obtain ⟨img, out⟩ := q
    cases out with
    | ok r t =>
      show countSummaryRecords (mkPageRecord (i + 2) img r t :: pageRecords (i + 1) rest) = 0
      rw [countSummary_cons_page]
      exact ih (i + 1)
    | err => exact ih (i + 1)

/-- Every image file referenced from the page loop output belongs to the list
of processed pages. -/
theorem pageRecords_image_mem : ∀ (ps : List (PyStr × PageOutcome)) (i : Nat) (rec : JRecord),
    rec ∈ pageRecords i ps → ∀ v : PyStr,
    List.lookup imageFileKey rec = some (JVal.jstr v) → v ∈ ps.map Prod.fst := by
  intro ps
  induction ps with
  | nil => intro i rec hmem; exact absurd hmem (List.not_mem_nil rec)
  | cons q rest ih =>
    intro i rec hmem v hv
    obtain ⟨img, out⟩ := q
    cases out with
    | ok r t =>
      have hmem2 : rec ∈ mkPageRecord (i + 2) img r t :: pageRecords (i + 1) rest := hmem
      rcases List.mem_cons.mp hmem2 with heq | htail
      · subst heq
        rw [lookup_image_mkPageRecord] at hv
        have hiv : img = v := by simpa using hv
        show v ∈ img :: rest.map Prod.fst
        rw [← hiv]
        exact List.mem_cons_self img (rest.map Prod.fst)
      · exact List.mem_cons_of_mem img (ih (i + 1) rec htail v hv)
    | err =>
      have htail : rec ∈ pageRecords (i + 1) rest := hmem
      exact List.mem_cons_of_mem img (ih (i + 1) rec htail v hv)

/-- A member of the first projections of a zip belongs to the first list. -/
theorem mem_fst_of_mem_zip_map {l1 : List PyStr} {l2 : List PageOutcome} {v : PyStr}
    (h : v ∈ (l1.zip l2).map Prod.fst) : v ∈ l1 := by
  rcases List.mem_map.mp h with ⟨⟨a, b⟩, hmem, heq⟩
  cases heq
  exact (List.of_mem_zip hmem).1

/-- Claim C2, counterexample: on a folder with 2 page images whose summary
request raises an error, the artifact is still written but contains no record
with `page = summary`, refuting the claim that an error run still ends with
exactly one summary record. -/
theorem c2_counterexample :
    Option.map countSummaryRecords
      (process_pathway_folder [("pg1.png".toList), ("pg2.png".toList)]
        [PageOutcome.ok ("r".toList) ("t".toList)] PageOutcome.err).artifact = some 0 := by decide

/-- Claim C2, amended: for every folder with at least 2 page images an
artifact is written whose responses reference only images after the dropped
first page; when the summary request succeeds the responses contain exactly
one record with `page = summary` and it is the final element, and when the
summary request raises an error no summary record is present. -/
theorem c2_responses_amended (image_files : List PyStr) (outs : List PageOutcome)
    (resp think : PyStr) (h : 2 ≤ image_files.length) :
    (process_pathway_folder image_files outs (PageOutcome.ok resp think)).artifact =
      some (extraction_responses image_files outs (PageOutcome.ok resp think)) ∧
    countSummaryRecords (extraction_responses image_files outs (PageOutcome.ok resp think)) = 1 ∧
    (extraction_responses image_files outs (PageOutcome.ok resp think)).getLast? =
      some (mkSummaryRecord resp think) ∧
    countSummaryRecords (extraction_responses image_files outs PageOutcome.err) = 0 ∧
    (∀ summaryOut : PageOutcome, ∀ rec ∈ extraction_responses image_files outs summaryOut,
      ∀ v : PyStr, List.lookup imageFileKey rec = some (JVal.jstr v) →
        v ∈ image_files.drop 1) := by
  refine ⟨?_, ?_, ?_, ?_, ?_⟩
  · unfold process_pathway_folder
    rw [if_neg (by omega)]
  · show countSummaryRecords
      (pageRecords 0 ((image_files.drop 1).zip outs) ++ [mkSummaryRecord resp think]) = 1
    rw [countSummary_append_summary, countSummary_pageRecords]
  · exact List.getLast?_concat _
  · exact countSummary_pageRecords _ 0
  · intro summaryOut rec hmem v hv
    cases summaryOut with
    | ok r t =>
      have hmem2 : rec ∈ pageRecords 0 ((image_files.drop 1).zip outs) ++
          [mkSummaryRecord r t] := hmem
      rcases List.mem_append.mp hmem2 with hpage | hsum
      · exact mem_fst_of_mem_zip_map (pageRecords_image_mem _ 0 rec hpage v hv)
      · have hrec : rec = mkSummaryRecord r t := by simpa using hsum
        rw [hrec, lookup_image_mkSummaryRecord] at hv
        exact absurd hv (by simp)
    | err => exact mem_fst_of_mem_zip_map (pageRecords_image_mem _ 0 rec hmem v hv)

/-- Witness for the amended claim C2 on a concrete 2-image folder. -/
theorem c2_witness :
    (process_pathway_folder [("pg1.png".toList), ("pg2.png".toList)] [PageOutcome.err]
        (PageOutcome.ok [] [])).artifact =
      some (extraction_responses [("pg1.png".toList), ("pg2.png".toList)] [PageOutcome.err]
        (PageOutcome.ok [] [])) :=
  (c2_responses_amended [("pg1.png".toList), ("pg2.png".toList)] [PageOutcome.err] [] []
    (by decide)).1

/-- Claim C9, counterexample: the Page Record written by the code has an
`image_file` key but the Pathway Summary Record does not, so the two record
shapes differ by more than the value of the `page` field. -/
theorem c9_counterexample :
    imageFileKey ∈ recordKeys (mkPageRecord 2 ("pg2.png".toList) ("r".toList) ("t".toList)) ∧
    imageFileKey ∉ recordKeys (mkSummaryRecord ("r".toList) ("t".toList)) := by decide

/-- Claim C9, amended: every Pathway Summary Record has exactly the fields
`page`, `response` and `thinking` (the Page Record fields minus `image_file`),
with `page` holding the string sentinel `summary` and the other two fields the
summary response and thinking text. -/
theorem c9_summary_record_shape (pageNo : Nat) (img resp think sresp sthink : PyStr) :
    recordKeys (mkPageRecord pageNo img resp think) =
      [pageKey, imageFileKey, responseKey, thinkingKey] ∧
    recordKeys (mkSummaryRecord sresp sthink) = [pageKey, responseKey, thinkingKey] ∧
    List.lookup pageKey (mkSummaryRecord sresp sthink) = some (JVal.jstr ("summary".toList)) ∧
    List.lookup responseKey (mkSummaryRecord sresp sthink) = some (JVal.jstr sresp) ∧
    List.lookup thinkingKey (mkSummaryRecord sresp sthink) = some (JVal.jstr sthink) :=
  ⟨rfl, rfl, rfl, rfl, rfl⟩

/-! ## Claim C7 : states of the streaming accumulator -/

/-- The text flag stays clear over any event sequence that contains no text
block start. -/
theorem foldl_inTextBlock_false : ∀ (events : List StreamEvent) (st : StreamState),
    StreamEvent.startTextBlock ∉ events → st.inTextBlock = false →
    (List.foldl streamStep st events).inTextBlock = false := by
  intro events
  induction events with
  | nil => intro st _ hst; exact hst
  | cons e rest ih =>
    intro st hmem hst
    have he : e ≠ StreamEvent.startTextBlock := by
      intro hcontra
      exact hmem (hcontra ▸ List.mem_cons_self e rest)
    have hrest : StreamEvent.startTextBlock ∉ rest := fun hc => hmem (List.mem_cons_of_mem e hc)
    show (List.foldl streamStep (streamStep st e) rest).inTextBlock = false
    apply ih _ hrest
    cases e with
    | startTextBlock => exact absurd rfl he
    | startThinkingBlock => simpa [streamStep] using hst
    | thinkingDelta s => by_cases hb : st.inThinkingBlock <;> simp [streamStep, hb, hst]
    | textDelta s => simp [streamStep, hst]
    | contentBlockStop => by_cases hb : st.inThinkingBlock <;> simp [streamStep, hb, hst]
    | messageStop => simpa [streamStep] using hst

/-- Claim C7, counterexample: after a text block start followed by a thinking
block start (with no intervening stop event), both block flags are set, so the
accumulator is simultaneously in the reasoning-accumulating and the
answer-accumulating state. -/
theorem c7_counterexample :
    (runStreamRequest [StreamEvent.startTextBlock, StreamEvent.startThinkingBlock]).inThinkingBlock
        = true ∧
    (runStreamRequest [StreamEvent.startTextBlock, StreamEvent.startThinkingBlock]).inTextBlock
        = true :=
  ⟨rfl, rfl⟩

/-- Claim C7, amended: the accumulator state machine has four reachable flag
states, not three: idle, accumulating-reasoning, accumulating-answer, and a
state accumulating both, reached by a thinking block start while inside an
answer block.  Both flags and both accumulators are reset at the start of
every request, and the answer-accumulating flag can only ever be raised by a
text block start event. -/
theorem c7_stream_states :
    blockFlags initStreamState = (false, false) ∧
    initStreamState.thinkingAcc = [] ∧
    initStreamState.responseAcc = [] ∧
    (∀ events : List StreamEvent,
      runStreamRequest events = List.foldl streamStep initStreamState events) ∧
    blockFlags (runStreamRequest [StreamEvent.startThinkingBlock]) = (true, false) ∧
    blockFlags (runStreamRequest [StreamEvent.startTextBlock]) = (false, true) ∧
    blockFlags (runStreamRequest
      [StreamEvent.startTextBlock, StreamEvent.startThinkingBlock]) = (true, true) ∧
    (∀ events : List StreamEvent, (runStreamRequest events).inTextBlock = true →
      StreamEvent.startTextBlock ∈ events) := by
  refine ⟨rfl, rfl, rfl, fun _ => rfl, rfl, rfl, rfl, ?_⟩
  intro events htext
  by_contra hmem
  have hfalse : (runStreamRequest events).inTextBlock = false :=
    foldl_inTextBlock_false events initStreamState hmem rfl
  rw [htext] at hfalse
  exact Bool.noConfusion hfalse

/-! ## Claim C3 : token-limit error handling of the synthesizer -/

/-- Claim C3: a complete-summary request failing with a BadRequestError whose
lowercased message contains `too many tokens` appends exactly one line to
`needs_truncation.log` and writes no Complete-Summary Artifact; any other
BadRequestError and any other error mark the document unsuccessful with no
log line and no artifact. -/
theorem c3_truncation_log (pathwayName baseName now msg : PyStr) :
    (containsSub tooManyTokensMsg (pyLower msg) = true →
      generate_complete_summary pathwayName baseName now (ReqResult.badRequest msg) =
        { artifact := none, truncationLogLines := 1, success := false }) ∧
    (containsSub tooManyTokensMsg (pyLower msg) = false →
      generate_complete_summary pathwayName baseName now (ReqResult.badRequest msg) =
        { artifact := none, truncationLogLines := 0, success := false }) ∧
    generate_complete_summary pathwayName baseName now ReqResult.otherError =
      { artifact := none, truncationLogLines := 0, success := false } := by
  refine ⟨?_, ?_, rfl⟩
  · intro h
    simp [generate_complete_summary, h]
  · intro h
    simp [generate_complete_summary, h]

/-- Witness for claim C3: a token-limit message produces one log line and no
artifact. -/
theorem c3_witness :
    generate_complete_summary ("P".toList) ("P_extracted.json".toList) ("now".toList)
        (ReqResult.badRequest ("Request exceeds limit: Too Many Tokens".toList)) =
      { artifact := none, truncationLogLines := 1, success := false } :=
  (c3_truncation_log ("P".toList) ("P_extracted.json".toList) ("now".toList)
      ("Request exceeds limit: Too Many Tokens".toList)).1 (by decide)
